import Mathlib

/-!
# wasmcloud HTTP server provider: request bridge and link registry

A shallow embedding of `src/server/server.go` (the per-link bridge server:
`ServeHTTP`, `handleError`, `transferRequest`, `addHeaders`, `Run`, `Shutdown`)
and of `src/main.go` (the provider: `PutLink`, `DeleteLink`, `Shutdown`).

Conventions of the embedding:

* a Go `string` is a `String`, a `[]byte` is a `List UInt8`, and `[]byte(s)` is
  the UTF-8 encoding of `s`;
* a Go `error` is represented by its `Error()` text; a `(T, error)` result is an
  `Except Error T`, a bare `error` result is an `Option Error` (`none` is `nil`);
* a Go `map[string]V` is a `GoMap V`: a finite map with pairwise distinct keys;
  `range` visits its entries in the order of the underlying list, which is
  arbitrary, as in Go;
* a pointer to an `HttpServer` is its index in the heap of allocated servers;
* library code is represented as follows: the response writer of net/http and
  `URL.String` of net/url follow the library's behaviour (Go 1.19 and later) as far as
  the bridge can reach it; the RPC transport, the msgpack codec and the header-key
  canonicalisation are parameters (`Env`).
-/

namespace HttpProvider

/-! ## Basic types -/

/-- Bytes of a Go `[]byte`. -/
abbrev Bytes := List UInt8

/-- Go `error`, represented by the text `Error()` returns. -/
abbrev Error := String

/-- Go `map[string]V`. -/
abbrev GoMap (V : Type) := AList (fun _ : String => V)

/-- Conversion `[]byte(s)`: the UTF-8 bytes of `s`. -/
def bytesOf (s : String) : Bytes := s.data.flatMap String.utf8EncodeChar

/-- Value `m[k]` of a map of string slices: the stored slice, the nil (empty) slice
when `k` is absent. -/
def GoMap.index (m : GoMap (List String)) (k : String) : List String :=
  (m.lookup k).getD []

/-- Value `m[k]` of a `map[string]string`: the empty string when `k` is absent. -/
def GoMap.indexStr (m : GoMap String) (k : String) : String :=
  (m.lookup k).getD ""

/-! ## Records of the `httpserver` interface -/

/-- Type `httpserver.HeaderMap`, a `map[string]HeaderValues` with
`HeaderValues = []string`. -/
abbrev HeaderMap := GoMap (List String)

/-- Record `httpserver.HttpRequest`. -/
structure HttpRequest where
  Method : String
  Path : String
  Body : Bytes
  Header : HeaderMap
deriving DecidableEq

/-- Record `httpserver.HttpResponse`; `StatusCode` is a `uint16`, and `int(StatusCode)`
is the same number. -/
structure HttpResponse where
  StatusCode : Nat
  Header : HeaderMap
  Body : Bytes
deriving DecidableEq

/-- Record `core.LinkDefinition`, with the fields the provider reads. -/
structure LinkDefinition where
  ActorId : String
  Values : GoMap String
deriving DecidableEq

/-! ## net/http: header map and response writer -/

/-- Type `http.Header`, a `map[string][]string` whose methods canonicalise the key with
`textproto.CanonicalMIMEHeaderKey`, here the parameter `canon`. -/
abbrev Header := GoMap (List String)

/-- Method `Header.Get`: the first value stored under the canonical key, `""` if none. -/
def Header.Get (canon : String → String) (h : Header) (k : String) : String :=
  (GoMap.index h (canon k)).headD ""

/-- Method `Header.Set`: the canonical key now holds the single value `v`. -/
def Header.Set (canon : String → String) (h : Header) (k v : String) : Header :=
  h.insert (canon k) [v]

/-- Method `Header.Add`: `v` is appended to the values of the canonical key. -/
def Header.Add (canon : String → String) (h : Header) (k v : String) : Header :=
  h.insert (canon k) (GoMap.index h (canon k) ++ [v])

/-- Value with which `WriteHeader` panics: `invalid WriteHeader code` followed by the
code. A panic ends the handler; net/http recovers it and closes the connection. -/
inductive Panic where
  | invalidWriteHeaderCode (code : Nat)
deriving DecidableEq

/-- State of the `http.ResponseWriter` that the net/http server hands to a handler.
`header` is the live map `Header()` returns. `wroteHeader`, `status` and `sentHeader`
are the committed response head: whether it is committed, its status code and the
header map as it stood at the commit (net/http takes its copy of the map no later than
the handler's next `Header()` call, so no later change reaches it). `informational`
lists the 1xx responses sent before the head, each with the header map of its moment.
`body` is the bytes net/http has accepted as the response body (it transmits them,
except in answer to a HEAD request). `writeHeaderCalls` and `writeCalls` record every
call the handler makes, in order. The bookkeeping of a declared `Content-Length` is not
represented. -/
structure ResponseWriter where
  header : Header
  wroteHeader : Bool
  status : Nat
  sentHeader : Header
  informational : List (Nat × Header)
  body : Bytes
  writeHeaderCalls : List Nat
  writeCalls : List Bytes
deriving DecidableEq

/-- Writer handed to `ServeHTTP` for a new request: nothing set, nothing sent. -/
def ResponseWriter.fresh : ResponseWriter :=
  { header := ∅, wroteHeader := false, status := 0, sentHeader := ∅, informational := [],
    body := [], writeHeaderCalls := [], writeCalls := [] }

/-- Constant `http.StatusSwitchingProtocols`. -/
def StatusSwitchingProtocols : Nat := 101

/-- Constant `http.StatusOK`. -/
def StatusOK : Nat := 200

/-- Constant `http.StatusNoContent`. -/
def StatusNoContent : Nat := 204

/-- Constant `http.StatusNotModified`. -/
def StatusNotModified : Nat := 304

/-- Constant `http.StatusInternalServerError`. -/
def StatusInternalServerError : Nat := 500

/-- Function `bodyAllowedForStatus` of net/http: no body for 1xx, 204 and 304. -/
def bodyAllowedForStatus (status : Nat) : Bool :=
  if 100 ≤ status ∧ status ≤ 199 then false
  else if status = StatusNoContent then false
  else if status = StatusNotModified then false
  else true

/-- Method `ResponseWriter.WriteHeader` of net/http's response. A call after the head is
committed is superfluous and ignored. Otherwise a code below 100 or above 999 panics
(`checkWriteHeaderCode`); a 1xx code other than 101 is sent at once as an informational
response and commits nothing; every other code commits the head. -/
def ResponseWriter.WriteHeader (w : ResponseWriter) (code : Nat) :
    ResponseWriter × Option Panic :=
  let w0 := { w with writeHeaderCalls := w.writeHeaderCalls ++ [code] }
  if w0.wroteHeader then (w0, none)
  else if code < 100 ∨ code > 999 then (w0, some (Panic.invalidWriteHeaderCode code))
  else if 100 ≤ code ∧ code ≤ 199 ∧ code ≠ StatusSwitchingProtocols then
    ({ w0 with informational := w0.informational ++ [(code, w0.header)] }, none)
  else ({ w0 with wroteHeader := true, status := code, sentHeader := w0.header }, none)

/-- Method `ResponseWriter.Write` of net/http's response: commits the head with
`http.StatusOK` if it is not committed yet; an empty slice is then done, bytes for a
status that allows no body are refused (`ErrBodyNotAllowed`), other bytes are added to
the body. -/
def ResponseWriter.Write (w : ResponseWriter) (b : Bytes) : ResponseWriter :=
  let w0 := { w with writeCalls := w.writeCalls ++ [b] }
  let w1 :=
    if w0.wroteHeader then w0
    else { w0 with wroteHeader := true, status := StatusOK, sentHeader := w0.header }
  if b = [] then w1
  else if bodyAllowedForStatus w1.status then { w1 with body := w1.body ++ b }
  else w1

/-! ## net/url: the request target -/

/-- Escaping modes of net/url that `URL.String` uses. -/
inductive Encoding where
  | encodePath
  | encodeHost
  | encodeUserPassword
  | encodeFragment
deriving DecidableEq

/-- Function `shouldEscape` of net/url on the byte with code `c`, for the four modes
above. Letters and digits are never escaped; a host keeps its sub-delimiters and
`: [ ] < > "`; the marks `- _ . ~` are never escaped; of the reserved characters
`$ & + , / : ; = ? @` a path escapes `?`, user and password escape `@ / ? :`, a fragment
escapes none; a fragment also keeps `! ( ) *`; every other byte is escaped. -/
def shouldEscape (c : Nat) (mode : Encoding) : Bool :=
  if (97 ≤ c ∧ c ≤ 122) ∨ (65 ≤ c ∧ c ≤ 90) ∨ (48 ≤ c ∧ c ≤ 57) then false
  else if mode = Encoding.encodeHost ∧
      c ∈ [33, 36, 38, 39, 40, 41, 42, 43, 44, 59, 61, 58, 91, 93, 60, 62, 34] then false
  else if c ∈ [45, 95, 46, 126] then false
  else if c ∈ [36, 38, 43, 44, 47, 58, 59, 61, 63, 64] then
    match mode with
    | Encoding.encodePath => c = 63
    | Encoding.encodeUserPassword => c = 64 ∨ c = 47 ∨ c = 63 ∨ c = 58
    | Encoding.encodeFragment => false
    | Encoding.encodeHost => true
  else if mode = Encoding.encodeFragment ∧ c ∈ [33, 40, 41, 42] then false
  else true

/-- Upper-case hexadecimal digit of a number below 16. -/
def upperhex (n : Nat) : Char :=
  if n < 10 then Char.ofNat (48 + n) else Char.ofNat (55 + n)

/-- Function `escape` of net/url: the string itself if no byte needs escaping, otherwise
every such byte replaced by `%` and its two hexadecimal digits. -/
def escape (s : String) (mode : Encoding) : String :=
  if (bytesOf s).all (fun c => !shouldEscape c.toNat mode) then s
  else
    ⟨(bytesOf s).flatMap (fun c =>
      if shouldEscape c.toNat mode then ['%', upperhex (c.toNat / 16), upperhex (c.toNat % 16)]
      else [Char.ofNat c.toNat])⟩

/-- Function `ishex` of net/url. -/
def ishex (c : Nat) : Bool :=
  (48 ≤ c ∧ c ≤ 57) ∨ (97 ≤ c ∧ c ≤ 102) ∨ (65 ≤ c ∧ c ≤ 70)

/-- Function `unhex` of net/url. -/
def unhex (c : Nat) : Nat :=
  if 48 ≤ c ∧ c ≤ 57 then c - 48
  else if 97 ≤ c ∧ c ≤ 102 then c - 97 + 10
  else if 65 ≤ c ∧ c ≤ 70 then c - 65 + 10
  else 0

/-- Decoding loop of `unescape` on byte codes, for the path and fragment modes (where
`+` stands for itself): `%XY` becomes the byte with the hexadecimal digits `X`, `Y`;
a `%` not followed by two hexadecimal digits is an error (`none`). -/
def unescapeCodes : List Nat → Option (List Nat)
  | [] => some []
  | 37 :: x :: y :: rest =>
    if ishex x ∧ ishex y then (unescapeCodes rest).map (fun t => (unhex x * 16 + unhex y) :: t)
    else none
  | [37] => none
  | [37, _] => none
  | c :: rest => (unescapeCodes rest).map (fun t => c :: t)

/-- Function `unescape` of net/url for the path and fragment modes, yielding the bytes of
the decoded string. -/
def unescape (s : String) : Option (List Nat) :=
  unescapeCodes ((bytesOf s).map (fun c => c.toNat))

/-- Function `validEncoded` of net/url: sub-delimiters, `:`, `@`, `[`, `]` and `%` are
accepted, every other byte must be one that the mode does not escape. -/
def validEncoded (s : String) (mode : Encoding) : Bool :=
  (bytesOf s).all (fun c =>
    c.toNat ∈ [33, 36, 38, 39, 40, 41, 42, 43, 44, 59, 61, 58, 64, 91, 93, 37] ||
      !shouldEscape c.toNat mode)

/-- Type `url.Userinfo`. -/
structure Userinfo where
  username : String
  password : String
  passwordSet : Bool
deriving DecidableEq

/-- Method `Userinfo.String`: the escaped user name, then `:` and the escaped password
if one is set. -/
def Userinfo.String (u : Userinfo) : String :=
  escape u.username Encoding.encodeUserPassword ++
    (if u.passwordSet then ":" ++ escape u.password Encoding.encodeUserPassword else "")

/-- Type `url.URL`. For a server request it is parsed from the request target: a target
in origin form (`/path?query`) sets only `Path`, `RawPath`, `ForceQuery` and `RawQuery`;
a target in absolute form (`http://host/path?query`) also sets `Scheme`, `Host` and
possibly `User`. `Path` is the decoded path; `RawPath` is the path as sent when that
differs from the default escaping of `Path`. -/
structure URL where
  Scheme : String := ""
  Opaque : String := ""
  User : Option Userinfo := none
  Host : String := ""
  Path : String
  RawPath : String := ""
  OmitHost : Bool := false
  ForceQuery : Bool
  RawQuery : String
  Fragment : String := ""
  RawFragment : String := ""
deriving DecidableEq

/-- Method `URL.EscapedPath`: `RawPath` when it is a valid encoding of `Path`, else `*`
for the path `*`, else the default escaping of `Path`. -/
def URL.EscapedPath (u : URL) : String :=
  if u.RawPath ≠ "" ∧ validEncoded u.RawPath Encoding.encodePath = true ∧
      unescape u.RawPath = some ((bytesOf u.Path).map (fun c => c.toNat)) then u.RawPath
  else if u.Path = "*" then "*"
  else escape u.Path Encoding.encodePath

/-- Method `URL.EscapedFragment`: `RawFragment` when it is a valid encoding of
`Fragment`, else the default escaping of `Fragment`. -/
def URL.EscapedFragment (u : URL) : String :=
  if u.RawFragment ≠ "" ∧ validEncoded u.RawFragment Encoding.encodeFragment = true ∧
      unescape u.RawFragment = some ((bytesOf u.Fragment).map (fun c => c.toNat)) then
    u.RawFragment
  else escape u.Fragment Encoding.encodeFragment

/-- Part of `URL.String` written before the path when there is no opaque part: nothing
without scheme, host and user, and nothing for an omitted empty host; otherwise `//`
(if host, path or user is there), the user information with `@`, and the escaped host. -/
def URL.authority (u : URL) : String :=
  if u.Scheme ≠ "" ∨ u.Host ≠ "" ∨ u.User ≠ none then
    if u.OmitHost = true ∧ u.Host = "" ∧ u.User = none then ""
    else
      (if u.Host ≠ "" ∨ u.Path ≠ "" ∨ u.User ≠ none then "//" else "") ++
      (match u.User with
       | some ui => ui.String ++ "@"
       | none => "") ++
      (if u.Host ≠ "" then escape u.Host Encoding.encodeHost else "")
  else ""

/-- Query and fragment part of `URL.String`: `?` and the raw query when `ForceQuery` is
set or the query is not empty, then `#` and the escaped fragment when there is one. -/
def URL.queryAndFragment (u : URL) : String :=
  (if u.ForceQuery = true ∨ u.RawQuery ≠ "" then "?" ++ u.RawQuery else "") ++
  (if u.Fragment ≠ "" then "#" ++ u.EscapedFragment else "")

/-- Method `URL.String`: the scheme with `:`; then the opaque part, or else the
authority, a `/` if the escaped path does not start with one and there is a host, `./`
if nothing has been written so far and the first segment of the escaped path contains
a colon, and the escaped path; then query and fragment. -/
def URL.String (u : URL) : String :=
  let scheme := if u.Scheme ≠ "" then u.Scheme ++ ":" else ""
  let rest :=
    if u.Opaque ≠ "" then u.Opaque
    else
      let path := u.EscapedPath
      let sep :=
        if path ≠ "" ∧ path.data.head? ≠ some '/' ∧ u.Host ≠ "" then "/" else ""
      let dot :=
        if scheme ++ u.authority ++ sep = "" ∧ ':' ∈ path.data.takeWhile (fun c => c ≠ '/')
        then "./" else ""
      u.authority ++ sep ++ dot ++ path
  scheme ++ rest ++ u.queryAndFragment

/-- Body stream `r.Body`, by what reading it to the end yields: the bytes delivered,
and the error that ended the stream if it did not end with EOF. -/
structure BodyStream where
  data : Bytes
  err : Option Error
deriving DecidableEq

/-- Function `io.ReadAll`: all bytes up to EOF with a nil error, or the bytes read so
far together with the stream's error. -/
def ioReadAll (b : BodyStream) : Bytes × Option Error := (b.data, b.err)

/-- Type `http.Request`, with the fields the bridge reads. -/
structure Request where
  Method : String
  URL : URL
  Header : Header
  Body : BodyStream
deriving DecidableEq

/-! ## The bridge server (`src/server/server.go`) -/

/-- Struct `HttpServer`: the link definition it was created for and its `server` field,
nil (`none`) until `Run` stores an `http.Server` there, represented by its `Addr`. -/
structure HttpServer where
  ld : LinkDefinition
  server : Option String
deriving DecidableEq

/-- One call `ToActor(actorID, payload, method)` on the RPC transport. -/
structure RpcCall where
  actorID : String
  payload : Bytes
  method : String
deriving DecidableEq

/-- Collaborators of the bridge that live outside the repository: the header-key
canonicalisation of net/textproto, the msgpack codec (`provider.MEncode`,
`httpserver.MDecodeHttpResponse`) and the transport (`WasmcloudProvider.ToActor`). -/
structure Env where
  canon : String → String
  MEncode : HttpRequest → Bytes
  ToActor : String → Bytes → String → Except Error Bytes
  MDecodeHttpResponse : Bytes → Except Error HttpResponse

/-- Function `transferRequest`: reads the whole body, and on success builds the request
record. The header loop stores every key of `r.Header` with its values in a new map. -/
def transferRequest (r : Request) : Except Error HttpRequest :=
  let (body, err) := ioReadAll r.Body
  match err with
  | some e => .error e
  | none =>
    let h : HeaderMap := r.Header.entries.foldl (fun h kv => h.insert kv.1 kv.2) ∅
    .ok { Method := r.Method, Path := r.URL.String, Body := body, Header := h }

/-- Body of the inner loop of `addHeaders`: `Set` when `Get` returns the empty string,
`Add` otherwise. -/
def addHeaderValue (canon : String → String) (k : String) (w : ResponseWriter) (tV : String) :
    ResponseWriter :=
  if Header.Get canon w.header k = "" then
    { w with header := Header.Set canon w.header k tV }
  else
    { w with header := Header.Add canon w.header k tV }

/-- Function `addHeaders`: for every key of the map, the inner loop over its values. -/
def addHeaders (canon : String → String) (w : ResponseWriter) (headers : HeaderMap) :
    ResponseWriter :=
  headers.entries.foldl (fun w kv => kv.2.foldl (addHeaderValue canon kv.1) w) w

/-- Method `HttpServer.handleError`: `WriteHeader(500)`, then `Write` of the error text;
the second component is the panic of `WriteHeader`, if it panics. -/
def handleError (w : ResponseWriter) (err : Error) : ResponseWriter × Option Panic :=
  match w.WriteHeader StatusInternalServerError with
  | (w1, some p) => (w1, some p)
  | (w1, none) => (w1.Write (bytesOf err), none)

/-- Everything one `ServeHTTP` call does: the response writer, the RPC calls issued, the
request records passed to `MEncode`, how often the request body was read and closed,
and the panic that ended the call, if one did. -/
structure Served where
  w : ResponseWriter
  rpcCalls : List RpcCall
  encoded : List HttpRequest
  bodyReads : Nat
  bodyCloses : Nat
  panic : Option Panic
deriving DecidableEq

/-- Method `HttpServer.ServeHTTP`; the RPC call is addressed to `h.ld.ActorId`. The
`logger.Infof` calls leave no trace in the state. `transferRequest` reads the body once
and closes it once, on both of its exits. A panic of `WriteHeader` ends the call where
it occurs. -/
def ServeHTTP (env : Env) (h : HttpServer) (w : ResponseWriter) (r : Request) : Served :=
  if r.URL.Path = "/healthz" then
    { w := (w.WriteHeader StatusNoContent).1, rpcCalls := [], encoded := [],
      bodyReads := 0, bodyCloses := 0, panic := (w.WriteHeader StatusNoContent).2 }
  else
    match transferRequest r with
    | .error err =>
      { w := (handleError w err).1, rpcCalls := [], encoded := [],
        bodyReads := 1, bodyCloses := 1, panic := (handleError w err).2 }
    | .ok req =>
      let body := env.MEncode req
      let call : RpcCall :=
        { actorID := h.ld.ActorId, payload := body, method := "HttpServer.HandleRequest" }
      match env.ToActor h.ld.ActorId body "HttpServer.HandleRequest" with
      | .error err =>
        { w := (handleError w err).1, rpcCalls := [call], encoded := [req],
          bodyReads := 1, bodyCloses := 1, panic := (handleError w err).2 }
      | .ok res =>
        match env.MDecodeHttpResponse res with
        | .error err =>
          { w := (handleError w err).1, rpcCalls := [call], encoded := [req],
            bodyReads := 1, bodyCloses := 1, panic := (handleError w err).2 }
        | .ok resp =>
          match w.WriteHeader resp.StatusCode with
          | (w1, some p) =>
            { w := w1, rpcCalls := [call], encoded := [req],
              bodyReads := 1, bodyCloses := 1, panic := some p }
          | (w1, none) =>
            let w2 :=
              if resp.Header.entries.length > 0 then addHeaders env.canon w1 resp.Header
              else w1
            { w := w2.Write resp.Body, rpcCalls := [call], encoded := [req],
              bodyReads := 1, bodyCloses := 1, panic := none }

/-! ## Server lifecycle and the link registry (`src/main.go`) -/

/-- Line written by `logger.Errorf`. -/
inductive LogLine where
  | startError (actorId : String) (err : Error)
  | shutdownError (actorId : String) (err : Option Error)
deriving DecidableEq

/-- Network behaviour the lifecycle code cannot control: `ListenAndServe addr` is the
error with which listening on `addr` fails (`none` when the listener binds and serves
until it is closed), `ServerShutdown s` the result of `http.Server.Shutdown` on the
server at pointer `s` within the five-second context (`none` is nil). -/
structure Net where
  ListenAndServe : String → Option Error
  ServerShutdown : Nat → Option Error

/-- Struct `HttpServerProvider` together with the servers it has allocated. `Actors` maps
an actor id to a pointer into `heap`; `runLog` and `shutdownLog` list the pointers on
which `Run` and `Shutdown` were called, in call order; `errorLog` is the logger's
error output. The mutex is not represented: operations are atomic here. -/
structure HttpServerProvider where
  Actors : GoMap Nat
  heap : List HttpServer
  runLog : List Nat
  shutdownLog : List Nat
  errorLog : List LogLine
deriving DecidableEq

/-- Function `NewHttpServerProvider`: an empty registry. -/
def NewHttpServerProvider : HttpServerProvider :=
  { Actors := ∅, heap := [], runLog := [], shutdownLog := [], errorLog := [] }

/-- Actor id of the server at pointer `s` (`""` for a pointer outside the heap). -/
def HttpServerProvider.actorOf (p : HttpServerProvider) (s : Nat) : String :=
  match p.heap.get? s with
  | some h => h.ld.ActorId
  | none => ""

/-- Function `server.New`: allocates a server for the link; the new pointer is the old
heap length. -/
def New (p : HttpServerProvider) (conf : LinkDefinition) : HttpServerProvider × Nat :=
  ({ p with heap := p.heap ++ [{ ld := conf, server := none }] }, p.heap.length)

/-- Method `HttpServer.Run` on the server at pointer `s`: stores an `http.Server` for the
configured address, starts the serving task and returns nil. The task's only effect
on the state is the error line it logs if `ListenAndServe` fails. A pointer outside the
heap does not occur: `PutLink` runs the server it has just allocated. -/
def Run (net : Net) (p : HttpServerProvider) (s : Nat) :
    HttpServerProvider × Option Error :=
  match p.heap.get? s with
  | none => (p, none)
  | some h =>
    let address := GoMap.indexStr h.ld.Values "address"
    let p1 := { p with heap := p.heap.set s { h with server := some address },
                       runLog := p.runLog ++ [s] }
    let p2 :=
      match net.ListenAndServe address with
      | some err => { p1 with errorLog := p1.errorLog ++ [LogLine.startError h.ld.ActorId err] }
      | none => p1
    (p2, none)

/-- Method `HttpServer.Shutdown` on the server at pointer `s`: shuts the `http.Server`
down, logs the outcome and returns it. -/
def HttpServer.Shutdown (net : Net) (p : HttpServerProvider) (s : Nat) :
    HttpServerProvider × Option Error :=
  let err := net.ServerShutdown s
  ({ p with shutdownLog := p.shutdownLog ++ [s],
            errorLog := p.errorLog ++ [LogLine.shutdownError (p.actorOf s) err] }, err)

/-- Method `HttpServerProvider.PutLink`. -/
def PutLink (net : Net) (p : HttpServerProvider) (l : LinkDefinition) :
    HttpServerProvider × Option Error :=
  let (p1, s) := New p l
  let (p2, err) := Run net p1 s
  match err with
  | some e => (p2, some e)
  | none => ({ p2 with Actors := p2.Actors.insert l.ActorId s }, none)

/-- Synchronous part of `HttpServerProvider.DeleteLink`: looks the actor id up, deletes
it from the map and returns nil. The second component is the value `s` captured by the
task started with `go` (`none` is the nil interface). -/
def DeleteLink (p : HttpServerProvider) (l : LinkDefinition) :
    HttpServerProvider × Option Nat × Option Error :=
  let actorID := l.ActorId
  let s := p.Actors.lookup actorID
  ({ p with Actors := p.Actors.erase actorID }, s, none)

/-- Task started by `DeleteLink`: returns at once for a nil `s`, shuts `s` down
otherwise. -/
def deleteLinkTask (net : Net) (p : HttpServerProvider) (s : Option Nat) :
    HttpServerProvider :=
  match s with
  | none => p
  | some s => (HttpServer.Shutdown net p s).1

/-- Method `HttpServerProvider.Shutdown`: shuts every server of the map down, discarding
the results, replaces the map by an empty one and returns nil. -/
def HttpServerProvider.Shutdown (net : Net) (p : HttpServerProvider) :
    HttpServerProvider × Option Error :=
  let p1 := p.Actors.entries.foldl (fun q kv => (HttpServer.Shutdown net q kv.2).1) p
  ({ p1 with Actors := ∅ }, none)

/-- Lifecycle callback issued by the host runtime. -/
inductive Event where
  | putLink (l : LinkDefinition)
  | deleteLink (l : LinkDefinition)
  | shutdown
deriving DecidableEq

/-- Effect of one callback; the task of `DeleteLink` is run to its end. -/
def step (net : Net) (p : HttpServerProvider) : Event → HttpServerProvider
  | .putLink l => (PutLink net p l).1
  | .deleteLink l =>
    let (p1, s, _) := DeleteLink p l
    deleteLinkTask net p1 s
  | .shutdown => (HttpServerProvider.Shutdown net p).1

/-- State after a sequence of callbacks, starting from the empty registry. -/
def run (net : Net) (es : List Event) : HttpServerProvider :=
  es.foldl (step net) NewHttpServerProvider

/-- Pointers of the servers created for actor `id` on which `Run` has been called and
`Shutdown` has not. -/
def runningFor (p : HttpServerProvider) (id : String) : List Nat :=
  (List.range p.heap.length).filter
    (fun s => decide (p.actorOf s = id) && decide (s ∈ p.runLog) && !decide (s ∈ p.shutdownLog))

/-! ## Concrete collaborators used in the examples -/

/-- Bytes allowed in a header key by `textproto` (RFC 7230 token characters). -/
def validHeaderFieldByte (c : Char) : Bool :=
  c.isAlphanum || c.toNat ∈ [33, 35, 36, 37, 38, 39, 42, 43, 45, 46, 94, 95, 96, 124, 126]

/-- Letter-case pass of `textproto.CanonicalMIMEHeaderKey`: upper case at the start and
after a hyphen, lower case elsewhere. -/
def canonicalLoop : Bool → List Char → List Char
  | _, [] => []
  | upper, c :: cs =>
    (if upper then c.toUpper else c.toLower) :: canonicalLoop (c == '-') cs

/-- Function `textproto.CanonicalMIMEHeaderKey`: a key with a byte that is not allowed is
returned unchanged. -/
def CanonicalMIMEHeaderKey (s : String) : String :=
  if s.data.all validHeaderFieldByte then ⟨canonicalLoop true s.data⟩ else s

/-- Header map with the single key `k`. -/
def singleHeader (k : String) (v : List String) : HeaderMap := (∅ : HeaderMap).insert k v

/-- Reply of the scenario: status 201, `Location: /foo/1`, body `{"id":1}`. -/
def scenarioReply : HttpResponse :=
  { StatusCode := 201, Header := singleHeader "Location" ["/foo/1"],
    Body := bytesOf "\x7b\"id\":1\x7d" }

/-- Collaborators of the scenario: the actor answers every call with `scenarioReply`; the
codec is the trivial one into the empty payload. -/
def scenarioEnv : Env :=
  { canon := CanonicalMIMEHeaderKey, MEncode := fun _ => [],
    ToActor := fun _ _ _ => .ok [], MDecodeHttpResponse := fun _ => .ok scenarioReply }

/-- Request of the scenario: `GET /foo` with header `X-Trace: 1` and an empty body. -/
def scenarioRequest : Request :=
  { Method := "GET", URL := { Path := "/foo", ForceQuery := false, RawQuery := "" },
    Header := singleHeader "X-Trace" ["1"], Body := { data := [], err := none } }

/-- Collaborators whose transport fails with `connection refused`. -/
def failingEnv : Env :=
  { scenarioEnv with ToActor := fun _ _ _ => .error "connection refused" }

/-- Request `POST /items?page=2` with two values under `Accept` and a three-byte body. -/
def postRequest : Request :=
  { Method := "POST", URL := { Path := "/items", ForceQuery := false, RawQuery := "page=2" },
    Header := (singleHeader "Accept" ["text/html", "text/plain"]).insert "X-Trace" ["1"],
    Body := { data := [104, 105, 33], err := none } }

/-- Request with the absolute-form target `GET http://example.com/foo?x=1`. -/
def absoluteRequest : Request :=
  { Method := "GET",
    URL := { Scheme := "http", Host := "example.com", Path := "/foo", ForceQuery := false,
             RawQuery := "x=1" },
    Header := ∅, Body := { data := [], err := none } }

/-- Request `PUT /upload` whose body stream breaks off after two bytes. -/
def brokenRequest : Request :=
  { Method := "PUT", URL := { Path := "/upload", ForceQuery := false, RawQuery := "" },
    Header := ∅, Body := { data := [1, 2], err := some "unexpected EOF" } }

/-- Network on which every listener binds and every shutdown succeeds. -/
def netOk : Net :=
  { ListenAndServe := fun _ => none, ServerShutdown := fun _ => none }

/-- Network on which no listener binds and every shutdown runs into its timeout. -/
def netDown : Net :=
  { ListenAndServe := fun _ => some "listen tcp: bind: address already in use",
    ServerShutdown := fun _ => some "context deadline exceeded" }

/-- Link for actor `A` whose configuration has no value under `address`. -/
def linkNoAddress : LinkDefinition := { ActorId := "A", Values := ∅ }

/-- Link for actor `id` with the bind address `addr`. -/
def linkAt (id addr : String) : LinkDefinition :=
  { ActorId := id, Values := (∅ : GoMap String).insert "address" addr }

/-- Running server of the scenario: destination `A` registered at `127.0.0.1:0`. -/
def serverA : HttpServer :=
  { ld := linkAt "A" "127.0.0.1:0", server := some "127.0.0.1:0" }

/-! # Theorems -/

/-! ## Auxiliary facts -/

theorem addHeaderValue_frame (canon : String → String) (k : String) (w : ResponseWriter)
    (tV : String) :
    (addHeaderValue canon k w tV) =
      { w with header := (addHeaderValue canon k w tV).header } := by
  unfold addHeaderValue
  split <;> rfl

theorem addHeaderValues_frame (canon : String → String) (k : String) (vs : List String)
    (w : ResponseWriter) :
    vs.foldl (addHeaderValue canon k) w =
      { w with header := (vs.foldl (addHeaderValue canon k) w).header } := by
  induction vs generalizing w with
  | nil => rfl
  | cons v vs ih =>
    simp only [List.foldl_cons]
    rw [ih (addHeaderValue canon k w v)]
    rw [addHeaderValue_frame canon k w v]

theorem addHeaders_entries_frame (canon : String → String)
    (es : List (Sigma fun _ : String => List String)) (w : ResponseWriter) :
    es.foldl (fun w kv => kv.2.foldl (addHeaderValue canon kv.1) w) w =
      { w with header :=
          (es.foldl (fun w kv => kv.2.foldl (addHeaderValue canon kv.1) w) w).header } := by
  induction es generalizing w with
  | nil => rfl
  | cons e es ih =>
    simp only [List.foldl_cons]
    rw [ih (e.2.foldl (addHeaderValue canon e.1) w)]
    rw [addHeaderValues_frame canon e.1 e.2 w]

/-- The loop of `addHeaders` changes the live header map of the writer and nothing else. -/
theorem addHeaders_frame (canon : String → String) (w : ResponseWriter) (headers : HeaderMap) :
    addHeaders canon w headers = { w with header := (addHeaders canon w headers).header } :=
  addHeaders_entries_frame canon headers.entries w

/-- On the fresh writer, `WriteHeader` with a code from 200 to 999 commits the head with
that code and the empty header map. -/
theorem writeHeader_fresh_final (code : Nat) (h1 : 200 ≤ code) (h2 : code ≤ 999) :
    ResponseWriter.fresh.WriteHeader code =
      ({ header := ∅, wroteHeader := true, status := code, sentHeader := ∅,
         informational := [], body := [], writeHeaderCalls := [code], writeCalls := [] },
       none) := by
  have hv : ¬ (code < 100 ∨ code > 999) := by omega
  have hi : ¬ (100 ≤ code ∧ code ≤ 199 ∧ code ≠ StatusSwitchingProtocols) := by omega
  simp [ResponseWriter.WriteHeader, ResponseWriter.fresh, hv, hi]

/-- What `ServeHTTP` does once translation, RPC call and decoding have succeeded. -/
theorem serveHTTP_success_eq (env : Env) (h : HttpServer) (w : ResponseWriter) (r : Request)
    (req : HttpRequest) (res : Bytes) (resp : HttpResponse)
    (hpath : r.URL.Path ≠ "/healthz")
    (hreq : transferRequest r = .ok req)
    (hrpc : env.ToActor h.ld.ActorId (env.MEncode req) "HttpServer.HandleRequest" = .ok res)
    (hdec : env.MDecodeHttpResponse res = .ok resp) :
    (ServeHTTP env h w r).w =
      (match (w.WriteHeader resp.StatusCode).2 with
       | some _ => (w.WriteHeader resp.StatusCode).1
       | none =>
         (if resp.Header.entries.length > 0 then
            addHeaders env.canon (w.WriteHeader resp.StatusCode).1 resp.Header
          else (w.WriteHeader resp.StatusCode).1).Write resp.Body) ∧
    (ServeHTTP env h w r).panic = (w.WriteHeader resp.StatusCode).2 := by
  simp only [ServeHTTP, if_neg hpath, hreq, hrpc, hdec]
  rcases hwh : w.WriteHeader resp.StatusCode with ⟨w1, _ | p⟩ <;> exact ⟨rfl, rfl⟩

/-! ## The bridge: `ServeHTTP` -/

/-- C5: for a request whose URL path is `/healthz`, whatever its method, query, headers
and body, `ServeHTTP` calls `WriteHeader(204)` and nothing else: status 204, no `Write`
call and no body byte, the request body neither read nor closed, no request record
encoded and no RPC call issued. -/
theorem serveHTTP_healthz (env : Env) (h : HttpServer) (r : Request)
    (hpath : r.URL.Path = "/healthz") :
    ServeHTTP env h ResponseWriter.fresh r =
      { w := { header := ∅, wroteHeader := true, status := 204, sentHeader := ∅,
               informational := [], body := [], writeHeaderCalls := [204], writeCalls := [] },
        rpcCalls := [], encoded := [], bodyReads := 0, bodyCloses := 0, panic := none } := by
  simp [ServeHTTP, hpath, ResponseWriter.WriteHeader, ResponseWriter.fresh, StatusNoContent,
    StatusSwitchingProtocols]

/-- Witness of C5: `POST /healthz?x=1` with a body stream that fails. -/
theorem serveHTTP_healthz_witness :
    ServeHTTP failingEnv serverA ResponseWriter.fresh
        { Method := "POST", URL := { Path := "/healthz", ForceQuery := false, RawQuery := "x=1" },
          Header := singleHeader "X-Trace" ["1"],
          Body := { data := [1, 2], err := some "unexpected EOF" } } =
      { w := { header := ∅, wroteHeader := true, status := 204, sentHeader := ∅,
               informational := [], body := [], writeHeaderCalls := [204], writeCalls := [] },
        rpcCalls := [], encoded := [], bodyReads := 0, bodyCloses := 0, panic := none } :=
  serveHTTP_healthz failingEnv serverA _ rfl

/-- C1: on the scenario (reply with status 201 and header `Location: /foo/1`) `ServeHTTP`
commits the response head with `WriteHeader(201)` while the writer's header map is still
empty, and stores `Location` in the map only afterwards: the header map sent to the client
has no `Location`. -/
theorem serveHTTP_scenario_location_not_sent :
    (ServeHTTP scenarioEnv serverA ResponseWriter.fresh scenarioRequest).w.status = 201 ∧
    (ServeHTTP scenarioEnv serverA ResponseWriter.fresh scenarioRequest).w.sentHeader.lookup
      "Location" = none ∧
    (ServeHTTP scenarioEnv serverA ResponseWriter.fresh scenarioRequest).w.sentHeader.entries = [] ∧
    (ServeHTTP scenarioEnv serverA ResponseWriter.fresh scenarioRequest).w.header.lookup
      "Location" = some ["/foo/1"] := by
  decide

/-- For every successfully decoded reply with a final status (200 to 999), whatever its
headers, the header map committed by `ServeHTTP` is the empty map of the fresh writer. -/
theorem serveHTTP_success_sends_no_reply_header (env : Env) (h : HttpServer) (r : Request)
    (req : HttpRequest) (res : Bytes) (resp : HttpResponse)
    (hpath : r.URL.Path ≠ "/healthz")
    (hreq : transferRequest r = .ok req)
    (hrpc : env.ToActor h.ld.ActorId (env.MEncode req) "HttpServer.HandleRequest" = .ok res)
    (hdec : env.MDecodeHttpResponse res = .ok resp)
    (h1 : 200 ≤ resp.StatusCode) (h2 : resp.StatusCode ≤ 999) :
    (ServeHTTP env h ResponseWriter.fresh r).w.sentHeader = ∅ := by
  obtain ⟨hw, _⟩ := serveHTTP_success_eq env h ResponseWriter.fresh r req res resp
    hpath hreq hrpc hdec
  rw [hw, writeHeader_fresh_final resp.StatusCode h1 h2]
  simp only
  split
  · rw [addHeaders_frame]
    simp [ResponseWriter.Write]
    split <;> (try split) <;> rfl
  · simp [ResponseWriter.Write]
    split <;> (try split) <;> rfl

/-! ## The translator: `addHeaders` and `transferRequest` -/

/-- C3: on a writer with an empty header map, `addHeaders` applied to the one-key map
`X-A: ["", "b"]` leaves `["b"]` under `X-A`: after the empty first value is set, `Get`
still returns the empty string, so the second value is set again and replaces it. -/
theorem addHeaders_empty_first_value_dropped :
    (singleHeader "X-A" ["", "b"]).lookup "X-A" = some ["", "b"] ∧
    (addHeaders CanonicalMIMEHeaderKey ResponseWriter.fresh
      (singleHeader "X-A" ["", "b"])).header.lookup "X-A" = some ["b"] := by
  decide

theorem index_insert_self (h : Header) (a : String) (v : List String) :
    GoMap.index (h.insert a v) a = v := by
  simp [GoMap.index, AList.lookup_insert]

theorem index_insert_other (h : Header) (a b : String) (v : List String) (hne : b ≠ a) :
    GoMap.index (h.insert a v) b = GoMap.index h b := by
  simp [GoMap.index, AList.lookup_insert_ne hne]

/-- Inner loop of `addHeaders` for key `k`: when the values already stored under the
canonical key do not start with the empty string, and neither do the new values if none
is stored yet, the new values are appended in order; other keys are not touched. -/
theorem addHeaderValues_index (canon : String → String) (k : String) (vs : List String)
    (w : ResponseWriter)
    (hstored : (GoMap.index w.header (canon k)).head? ≠ some "")
    (hnew : GoMap.index w.header (canon k) = [] → vs.head? ≠ some "") :
    GoMap.index (vs.foldl (addHeaderValue canon k) w).header (canon k) =
      GoMap.index w.header (canon k) ++ vs ∧
    ∀ k2, k2 ≠ canon k →
      GoMap.index (vs.foldl (addHeaderValue canon k) w).header k2 = GoMap.index w.header k2 := by
  induction vs generalizing w with
  | nil => simp
  | cons v vs ih =>
    simp only [List.foldl_cons]
    by_cases hget : Header.Get canon w.header k = ""
    · have hxs : GoMap.index w.header (canon k) = [] := by
        unfold Header.Get at hget
        cases hx : GoMap.index w.header (canon k) with
        | nil => rfl
        | cons x xs =>
          rw [hx] at hget hstored
          simp at hget hstored
          exact absurd hget hstored
      have hv : v ≠ "" := by
        have := hnew hxs
        simpa using this
      have hstep : addHeaderValue canon k w v =
          { w with header := Header.Set canon w.header k v } := by
        simp [addHeaderValue, hget]
      have hidx : GoMap.index (addHeaderValue canon k w v).header (canon k) = [v] := by
        rw [hstep]; exact index_insert_self _ _ _
      obtain ⟨h1, h2⟩ := ih (addHeaderValue canon k w v)
        (by rw [hidx]; simpa using hv) (by rw [hidx]; simp)
      refine ⟨by rw [h1, hidx, hxs]; rfl, ?_⟩
      intro k2 hk2
      rw [h2 k2 hk2, hstep]
      exact index_insert_other _ _ _ _ hk2
    · have hstep : addHeaderValue canon k w v =
          { w with header := Header.Add canon w.header k v } := by
        simp [addHeaderValue, hget]
      have hidx : GoMap.index (addHeaderValue canon k w v).header (canon k) =
          GoMap.index w.header (canon k) ++ [v] := by
        rw [hstep]; exact index_insert_self _ _ _
      have hxs : GoMap.index w.header (canon k) ≠ [] := by
        intro hnil
        apply hget
        simp [Header.Get, hnil]
      obtain ⟨h1, h2⟩ := ih (addHeaderValue canon k w v)
        (by
          rw [hidx]
          cases hx : GoMap.index w.header (canon k) with
          | nil => exact absurd hx hxs
          | cons x xs => rw [hx] at hstored; simpa using hstored)
        (by
          rw [hidx]
          intro hnil
          simp at hnil)
      refine ⟨by rw [h1, hidx]; simp, ?_⟩
      intro k2 hk2
      rw [h2 k2 hk2, hstep]
      exact index_insert_other _ _ _ _ hk2

/-- Outer loop of `addHeaders` over entries whose canonical keys are pairwise distinct and
not yet set, none of whose value lists starts with the empty string: every entry ends up
under its canonical key with its values in order. -/
theorem addHeaders_entries_index (canon : String → String)
    (es : List (Sigma fun _ : String => List String)) (w : ResponseWriter)
    (hdistinct : (es.map (fun kv => canon kv.1)).Nodup)
    (hunset : ∀ kv ∈ es, GoMap.index w.header (canon kv.1) = [])
    (hfirst : ∀ kv ∈ es, kv.2.head? ≠ some "") :
    (∀ kv ∈ es,
      GoMap.index (es.foldl (fun w kv => kv.2.foldl (addHeaderValue canon kv.1) w) w).header
        (canon kv.1) = kv.2) ∧
    ∀ k2, k2 ∉ es.map (fun kv => canon kv.1) →
      GoMap.index (es.foldl (fun w kv => kv.2.foldl (addHeaderValue canon kv.1) w) w).header k2
        = GoMap.index w.header k2 := by
  induction es generalizing w with
  | nil => simp
  | cons e es ih =>
    simp only [List.foldl_cons]
    have hd := List.nodup_cons.mp (by simpa using hdistinct :
      (canon e.1 :: es.map (fun kv => canon kv.1)).Nodup)
    have he : GoMap.index w.header (canon e.1) = [] := hunset e (List.mem_cons_self _ _)
    obtain ⟨g1, g2⟩ := addHeaderValues_index canon e.1 e.2 w (by rw [he]; simp)
      (fun _ => hfirst e (List.mem_cons_self _ _))
    have hunset2 : ∀ kv ∈ es,
        GoMap.index (e.2.foldl (addHeaderValue canon e.1) w).header (canon kv.1) = [] := by
      intro kv hkv
      have hne : canon kv.1 ≠ canon e.1 := by
        intro heq
        apply hd.1
        rw [← heq]
        exact List.mem_map_of_mem (fun kv => canon kv.1) hkv
      rw [g2 _ hne]
      exact hunset kv (List.mem_cons_of_mem _ hkv)
    obtain ⟨i1, i2⟩ := ih (e.2.foldl (addHeaderValue canon e.1) w) hd.2 hunset2
      (fun kv hkv => hfirst kv (List.mem_cons_of_mem _ hkv))
    constructor
    · intro kv hkv
      rcases List.mem_cons.mp hkv with heq | hmem
      · subst heq
        rw [i2 _ hd.1, g1, he]
        rfl
      · exact i1 kv hmem
    · intro k2 hk2
      have hk2a : k2 ≠ canon e.1 := by
        intro heq
        apply hk2
        simp [heq]
      have hk2b : k2 ∉ es.map (fun kv => canon kv.1) := by
        intro hmem
        apply hk2
        simp only [List.map_cons, List.mem_cons]
        exact Or.inr hmem
      rw [i2 _ hk2b, g2 _ hk2a]

/-- On a writer with an empty header map, for a response header map whose keys are
pairwise distinct after canonicalisation and none of whose value lists starts with the
empty string, `addHeaders` leaves under the canonical form of every key exactly the
key's values, in order. -/
theorem addHeaders_nonempty_first_values (canon : String → String) (headers : HeaderMap)
    (hdistinct : (headers.entries.map (fun kv => canon kv.1)).Nodup)
    (hfirst : ∀ kv ∈ headers.entries, kv.2.head? ≠ some "") :
    ∀ kv ∈ headers.entries,
      GoMap.index (addHeaders canon ResponseWriter.fresh headers).header (canon kv.1) = kv.2 :=
  (addHeaders_entries_index canon headers.entries ResponseWriter.fresh hdistinct
    (fun _ _ => rfl) hfirst).1

/-- Copying the entries of a map one by one into `acc`, as the header loop of
`transferRequest` does, yields a map with the entries' bindings on top of those of `acc`. -/
theorem lookup_foldl_insert (es : List (Sigma fun _ : String => List String))
    (hnd : es.NodupKeys) (acc : HeaderMap) (k : String) :
    (es.foldl (fun h kv => h.insert kv.1 kv.2) acc).lookup k =
      match List.dlookup k es with
      | some v => some v
      | none => acc.lookup k := by
  induction es generalizing acc with
  | nil => simp
  | cons e es ih =>
    obtain ⟨hne, hnd2⟩ := List.nodupKeys_cons.mp hnd
    obtain ⟨a, b⟩ := e
    simp only [List.foldl_cons]
    rw [ih hnd2]
    by_cases hk : k = a
    · subst hk
      have h1 : List.dlookup k es = none := List.dlookup_eq_none.mpr hne
      rw [h1, List.dlookup_cons_eq]
      simp [AList.lookup_insert]
    · rw [List.dlookup_cons_ne es ⟨a, b⟩ hk]
      cases List.dlookup k es with
      | some v => rfl
      | none => simp [AList.lookup_insert_ne hk]

/-- Method `URL.String` on a target in origin form: the escaped path, then the query. -/
theorem string_origin_form (u : URL) (hs : u.Scheme = "") (ho : u.Opaque = "")
    (hu : u.User = none) (hh : u.Host = "") (hf : u.Fragment = "")
    (hp : u.EscapedPath.data.head? = some '/') :
    u.String = u.EscapedPath ++
      (if u.ForceQuery = true ∨ u.RawQuery ≠ "" then "?" ++ u.RawQuery else "") := by
  have hseg : u.EscapedPath.data.takeWhile (fun c => c ≠ '/') = [] := by
    cases hd : u.EscapedPath.data with
    | nil => rfl
    | cons c cs =>
      rw [hd] at hp
      simp at hp
      simp [hp]
  simp only [ne_eq, decide_not] at hseg
  simp [URL.String, URL.authority, URL.queryAndFragment, hs, ho, hu, hh, hf, hseg]

/-- C6 fails on the code: for the absolute-form target `GET http://example.com/foo?x=1`,
whose body stream ends without error, the record's path is the whole target
`http://example.com/foo?x=1`, not the path `/foo` followed by `?` and the query `x=1`. -/
theorem transferRequest_absolute_target_counterexample :
    absoluteRequest.Body.err = none ∧
    absoluteRequest.URL.Path = "/foo" ∧
    absoluteRequest.URL.EscapedPath = "/foo" ∧
    absoluteRequest.URL.RawQuery = "x=1" ∧
    (∃ req, transferRequest absoluteRequest = .ok req ∧
      req.Path = "http://example.com/foo?x=1" ∧
      req.Path ≠ "/foo" ++ "?" ++ "x=1") :=
  ⟨rfl, rfl, by decide, rfl, _, rfl, by decide, by decide⟩

/-- C6, amended: for a request whose body stream reads to the end without error,
`transferRequest` returns a record with the request's method, with the path
`r.URL.String()`, with the bytes read from the body stream, and with a header map that
binds every key exactly as the request's header map does; for a request target in origin
form (no scheme, opaque part, user information, host or fragment, and an escaped path
that starts with `/`) the record's path is the escaped path, then `?` and the raw query
when `ForceQuery` is set or the query is not empty. For a request whose body stream fails
with `e`, it returns `e` and no record. -/
theorem transferRequest_spec (r : Request) :
    (r.Body.err = none →
      ∃ req, transferRequest r = .ok req ∧
        req.Method = r.Method ∧
        req.Path = r.URL.String ∧
        (r.URL.Scheme = "" ∧ r.URL.Opaque = "" ∧ r.URL.User = none ∧ r.URL.Host = "" ∧
            r.URL.Fragment = "" ∧ r.URL.EscapedPath.data.head? = some '/' →
          req.Path = r.URL.EscapedPath ++
            (if r.URL.ForceQuery = true ∨ r.URL.RawQuery ≠ "" then "?" ++ r.URL.RawQuery
             else "")) ∧
        req.Body = r.Body.data ∧
        ∀ k, req.Header.lookup k = r.Header.lookup k) ∧
    (∀ e, r.Body.err = some e → transferRequest r = .error e) := by
  constructor
  · intro h
    refine ⟨_, by simp only [transferRequest, ioReadAll, h]; rfl, rfl, rfl, ?_, rfl, ?_⟩
    · rintro ⟨hs, ho, hu, hh, hf, hp⟩
      exact string_origin_form r.URL hs ho hu hh hf hp
    · intro k
      show (r.Header.entries.foldl (fun h kv => h.insert kv.1 kv.2) (∅ : HeaderMap)).lookup k = _
      rw [lookup_foldl_insert r.Header.entries r.Header.nodupKeys]
      show (match List.dlookup k r.Header.entries with
        | some v => some v
        | none => none) = List.dlookup k r.Header.entries
      cases List.dlookup k r.Header.entries <;> rfl
  · intro e h
    simp only [transferRequest, ioReadAll, h]

/-- Witness of C6 amended: `postRequest`, an origin-form target whose body stream ends
without error, yields the path `/items?page=2`; `brokenRequest` yields the error of its
body stream. -/
theorem transferRequest_spec_witness :
    (∃ req, transferRequest postRequest = .ok req ∧
      req.Method = "POST" ∧
      req.Path = "/items?page=2" ∧
      req.Body = [104, 105, 33] ∧
      ∀ k, req.Header.lookup k = postRequest.Header.lookup k) ∧
    transferRequest brokenRequest = .error "unexpected EOF" :=
  ⟨match (transferRequest_spec postRequest).1 rfl with
    | ⟨req, h1, h2, _, h4, h5, h6⟩ =>
      ⟨req, h1, h2,
        (h4 ⟨rfl, rfl, rfl, rfl, rfl, by decide⟩).trans (by decide), h5, h6⟩,
   (transferRequest_spec brokenRequest).2 "unexpected EOF" rfl⟩

/-! ## The link registry -/

/-- Server allocated by `New` and started by `Run` is the last of the heap. -/
theorem run_new (net : Net) (p : HttpServerProvider) (l : LinkDefinition) :
    Run net (New p l).1 (New p l).2 =
      ({ Actors := p.Actors,
         heap := p.heap ++ [{ ld := l, server := some (GoMap.indexStr l.Values "address") }],
         runLog := p.runLog ++ [p.heap.length],
         shutdownLog := p.shutdownLog,
         errorLog := p.errorLog ++
           (match net.ListenAndServe (GoMap.indexStr l.Values "address") with
            | some err => [LogLine.startError l.ActorId err]
            | none => []) }, none) := by
  simp only [Run, New, List.get?_eq_getElem?, List.getElem?_concat_length]
  rw [List.set_append_right _ _ (Nat.le_refl _)]
  cases net.ListenAndServe (GoMap.indexStr l.Values "address") <;> simp

/-- C7 fails on the code: on the empty registry, with a network on which no listener
binds, `PutLink` of a link with no `address` value returns nil and registers the new
server under the link's actor id. -/
theorem putLink_no_address_counterexample :
    linkNoAddress.Values.lookup "address" = none ∧
    netDown.ListenAndServe (GoMap.indexStr linkNoAddress.Values "address") ≠ none ∧
    NewHttpServerProvider.Actors.lookup "A" = none ∧
    (PutLink netDown NewHttpServerProvider linkNoAddress).2 = none ∧
    (PutLink netDown NewHttpServerProvider linkNoAddress).1.Actors.lookup "A" = some 0 ∧
    ¬ ((PutLink netDown NewHttpServerProvider linkNoAddress).2 ≠ none ∧
       (PutLink netDown NewHttpServerProvider linkNoAddress).1.Actors.entries
         = NewHttpServerProvider.Actors.entries) := by
  decide

/-- C7, amended: `Run` always returns nil, so for every registry state, every link
definition (with or without a value under `address`; without one the server gets the
empty address) and every network (whether or not the listener binds), `PutLink` returns
nil, maps the link's actor id to the newly allocated and started server and leaves the
entries under other ids unchanged; a bind failure only adds a line to the error log. -/
theorem putLink_always_registers (net : Net) (p : HttpServerProvider) (l : LinkDefinition) :
    (∀ q s, (Run net q s).2 = none) ∧
    (PutLink net p l).2 = none ∧
    (PutLink net p l).1.Actors.lookup l.ActorId = some p.heap.length ∧
    (∀ k, k ≠ l.ActorId → (PutLink net p l).1.Actors.lookup k = p.Actors.lookup k) ∧
    (PutLink net p l).1.heap =
      p.heap ++ [{ ld := l, server := some (GoMap.indexStr l.Values "address") }] ∧
    (PutLink net p l).1.runLog = p.runLog ++ [p.heap.length] ∧
    (PutLink net p l).1.shutdownLog = p.shutdownLog ∧
    (PutLink net p l).1.errorLog = p.errorLog ++
      (match net.ListenAndServe (GoMap.indexStr l.Values "address") with
       | some err => [LogLine.startError l.ActorId err]
       | none => []) := by
  have h := run_new net p l
  have hp : PutLink net p l =
      ({ (Run net (New p l).1 (New p l).2).1 with
          Actors := (Run net (New p l).1 (New p l).2).1.Actors.insert l.ActorId (New p l).2 },
        none) := by
    simp only [PutLink]
    rw [h]
  rw [hp, h]
  refine ⟨?_, rfl, ?_, ?_, rfl, rfl, rfl, rfl⟩
  · intro q s
    unfold Run
    split <;> rfl
  · simp [New, AList.lookup_insert]
  · intro k hk
    simp [AList.lookup_insert_ne hk]

/-- Witness of C7 amended: on a registry that holds `B`, `PutLink` of the link without
`address` returns nil, registers `A` and leaves the entry of `B` as it was. -/
theorem putLink_always_registers_witness :
    (PutLink netDown (run netOk [Event.putLink (linkAt "B" "127.0.0.1:8080")])
      linkNoAddress).2 = none ∧
    (PutLink netDown (run netOk [Event.putLink (linkAt "B" "127.0.0.1:8080")])
      linkNoAddress).1.Actors.lookup "B"
      = (run netOk [Event.putLink (linkAt "B" "127.0.0.1:8080")]).Actors.lookup "B" :=
  ⟨(putLink_always_registers netDown
      (run netOk [Event.putLink (linkAt "B" "127.0.0.1:8080")]) linkNoAddress).2.1,
   (putLink_always_registers netDown
      (run netOk [Event.putLink (linkAt "B" "127.0.0.1:8080")]) linkNoAddress).2.2.2.1
      "B" (by decide)⟩

/-- C8: `PutLink` for actor `A` at `127.0.0.1:8080` followed by `PutLink` for actor `A` at
`127.0.0.1:8081`: the second call is not rejected, no `Shutdown` has been called, and the
two servers created for `A` (pointers 0 and 1) have both been started and not stopped;
the map only knows the second. -/
theorem putLink_twice_two_servers_running :
    (PutLink netOk (run netOk [Event.putLink (linkAt "A" "127.0.0.1:8080")])
      (linkAt "A" "127.0.0.1:8081")).2 = none ∧
    (run netOk [Event.putLink (linkAt "A" "127.0.0.1:8080"),
      Event.putLink (linkAt "A" "127.0.0.1:8081")]).shutdownLog = [] ∧
    runningFor (run netOk [Event.putLink (linkAt "A" "127.0.0.1:8080"),
      Event.putLink (linkAt "A" "127.0.0.1:8081")]) "A" = [0, 1] ∧
    (run netOk [Event.putLink (linkAt "A" "127.0.0.1:8080"),
      Event.putLink (linkAt "A" "127.0.0.1:8081")]).Actors.lookup "A" = some 1 := by
  decide

/-- C9: for every registry state and every actor id, `DeleteLink` returns nil; afterwards
the map has no entry for the id and binds every other id as before; the synchronous part
stops nothing, and the task it starts calls `Shutdown` exactly once on the server that was
mapped to the id and on no other. When the id is not registered the map is unchanged, and
the task leaves the state as it was. -/
theorem deleteLink_spec (net : Net) (p : HttpServerProvider) (l : LinkDefinition) :
    (DeleteLink p l).2.2 = none ∧
    (DeleteLink p l).1.Actors.lookup l.ActorId = none ∧
    (∀ k, k ≠ l.ActorId → (DeleteLink p l).1.Actors.lookup k = p.Actors.lookup k) ∧
    (DeleteLink p l).1.shutdownLog = p.shutdownLog ∧
    (DeleteLink p l).1.heap = p.heap ∧
    (DeleteLink p l).1.runLog = p.runLog ∧
    (DeleteLink p l).2.1 = p.Actors.lookup l.ActorId ∧
    (deleteLinkTask net (DeleteLink p l).1 (DeleteLink p l).2.1).shutdownLog =
      p.shutdownLog ++ (p.Actors.lookup l.ActorId).toList ∧
    (deleteLinkTask net (DeleteLink p l).1 (DeleteLink p l).2.1).Actors =
      (DeleteLink p l).1.Actors ∧
    (p.Actors.lookup l.ActorId = none →
      (DeleteLink p l).1 = p ∧
      deleteLinkTask net (DeleteLink p l).1 (DeleteLink p l).2.1 = p) := by
  refine ⟨rfl, ?_, ?_, rfl, rfl, rfl, rfl, ?_, ?_, ?_⟩
  · simp [DeleteLink, AList.lookup_erase]
  · intro k hk
    simp [DeleteLink, AList.lookup_erase_ne hk]
  · simp only [DeleteLink]
    cases p.Actors.lookup l.ActorId <;> simp [deleteLinkTask, HttpServer.Shutdown]
  · simp only [DeleteLink]
    cases p.Actors.lookup l.ActorId <;> simp [deleteLinkTask, HttpServer.Shutdown]
  · intro hnone
    have hmem : l.ActorId ∉ p.Actors.entries.keys := List.dlookup_eq_none.mp hnone
    have herase : p.Actors.erase l.ActorId = p.Actors :=
      AList.ext (List.kerase_of_not_mem_keys hmem)
    have hd : (DeleteLink p l).1 = p := by
      simp only [DeleteLink, herase]
    have hs : (DeleteLink p l).2.1 = none := hnone
    rw [hs, hd]
    exact ⟨rfl, rfl⟩

/-- Witness of C9: deleting the unregistered id `B` from a registry that holds `A`. -/
theorem deleteLink_spec_witness :
    (run netOk [Event.putLink (linkAt "A" "127.0.0.1:8080")]).Actors.lookup "B" = none ∧
    (DeleteLink (run netOk [Event.putLink (linkAt "A" "127.0.0.1:8080")])
      (linkAt "B" "127.0.0.1:9090")).1
      = run netOk [Event.putLink (linkAt "A" "127.0.0.1:8080")] ∧
    deleteLinkTask netOk
      (DeleteLink (run netOk [Event.putLink (linkAt "A" "127.0.0.1:8080")])
        (linkAt "B" "127.0.0.1:9090")).1
      (DeleteLink (run netOk [Event.putLink (linkAt "A" "127.0.0.1:8080")])
        (linkAt "B" "127.0.0.1:9090")).2.1
      = run netOk [Event.putLink (linkAt "A" "127.0.0.1:8080")] :=
  ⟨by decide,
   (deleteLink_spec netOk (run netOk [Event.putLink (linkAt "A" "127.0.0.1:8080")])
      (linkAt "B" "127.0.0.1:9090")).2.2.2.2.2.2.2.2.2 (by decide)⟩

/-- Shutting down the servers of a list of entries one after the other appends their
pointers to the shutdown log and leaves map, heap and run log alone. -/
theorem shutdown_entries (net : Net) (es : List (Sigma fun _ : String => Nat)) (p : HttpServerProvider) :
    (es.foldl (fun q kv => (HttpServer.Shutdown net q kv.2).1) p).shutdownLog =
      p.shutdownLog ++ es.map (fun kv => kv.2) ∧
    (es.foldl (fun q kv => (HttpServer.Shutdown net q kv.2).1) p).heap = p.heap ∧
    (es.foldl (fun q kv => (HttpServer.Shutdown net q kv.2).1) p).runLog = p.runLog ∧
    (es.foldl (fun q kv => (HttpServer.Shutdown net q kv.2).1) p).Actors = p.Actors := by
  induction es generalizing p with
  | nil => simp
  | cons e es ih =>
    simp only [List.foldl_cons, List.map_cons]
    obtain ⟨h1, h2, h3, h4⟩ := ih (HttpServer.Shutdown net p e.2).1
    rw [h1, h2, h3, h4]
    simp [HttpServer.Shutdown]

/-- C10: for every registry state and every network (so also when server shutdowns fail
or time out), the provider's `Shutdown` returns nil, leaves the map empty and calls the
server-level `Shutdown` once for each of the N entries, on the server of that entry, and
on nothing else: the shutdown log grows by the N registered pointers. On an empty
registry nothing is stopped. -/
theorem provider_shutdown_spec (net : Net) (p : HttpServerProvider) :
    (HttpServerProvider.Shutdown net p).2 = none ∧
    (HttpServerProvider.Shutdown net p).1.Actors = ∅ ∧
    (HttpServerProvider.Shutdown net p).1.shutdownLog =
      p.shutdownLog ++ p.Actors.entries.map (fun kv => kv.2) ∧
    (HttpServerProvider.Shutdown net p).1.shutdownLog.length =
      p.shutdownLog.length + p.Actors.entries.length ∧
    (∀ s, (HttpServerProvider.Shutdown net p).1.shutdownLog.count s =
      p.shutdownLog.count s + (p.Actors.entries.map (fun kv => kv.2)).count s) ∧
    (HttpServerProvider.Shutdown net p).1.heap = p.heap ∧
    (HttpServerProvider.Shutdown net p).1.runLog = p.runLog ∧
    (p.Actors = ∅ → (HttpServerProvider.Shutdown net p).1 = p) := by
  obtain ⟨h1, h2, h3, _⟩ := shutdown_entries net p.Actors.entries p
  have hlog : (HttpServerProvider.Shutdown net p).1.shutdownLog =
      p.shutdownLog ++ p.Actors.entries.map (fun kv => kv.2) := h1
  refine ⟨rfl, rfl, hlog, ?_, ?_, h2, h3, ?_⟩
  · rw [hlog]; simp
  · intro s
    rw [hlog]; simp
  · intro hempty
    have he : p.Actors.entries = [] := by rw [hempty]; rfl
    simp only [HttpServerProvider.Shutdown, he, List.foldl_nil]
    cases p with
    | mk a h r sl el =>
      simp only at hempty
      simp [hempty]

/-- Witness of C10: shutdown of the empty registry changes nothing; shutdown of a registry
with two servers, both of whose shutdowns time out, stops both and empties the map. -/
theorem provider_shutdown_spec_witness :
    (HttpServerProvider.Shutdown netDown NewHttpServerProvider).1 = NewHttpServerProvider ∧
    (HttpServerProvider.Shutdown netDown (run netDown [Event.putLink (linkAt "A" "127.0.0.1:8080"),
      Event.putLink (linkAt "B" "127.0.0.1:8081")])).2 = none ∧
    (HttpServerProvider.Shutdown netDown (run netDown [Event.putLink (linkAt "A" "127.0.0.1:8080"),
      Event.putLink (linkAt "B" "127.0.0.1:8081")])).1.Actors = ∅ :=
  ⟨(provider_shutdown_spec netDown NewHttpServerProvider).2.2.2.2.2.2.2 rfl,
   (provider_shutdown_spec netDown _).1,
   (provider_shutdown_spec netDown _).2.1⟩

end HttpProvider
